import Mathlib

/-!
Verification of the grade-averaging and period data model of the report-card
application.  The JavaScript sources (`script.js`, `admin.js`, and the unnamed
student-view file) are shallowly embedded below: JS numbers are modelled as
rationals (`ℚ`), a `parseFloat` result is `Option ℚ` (`none` = `NaN`),
and the JS idiom `x || d` (which yields `d` when `x` is `NaN` or `0`) is the
function `jsOr`.
-/

namespace Report

/-- The `type` field of a period object: the strings `'period'`, `'exam'`,
`'semester'` used in the sources. -/
inductive PType where
  | period
  | exam
  | semester
deriving DecidableEq, Repr

/-- A period object `{ id, name, type }` as used throughout the sources. -/
structure Period where
  id : String
  name : String
  type : PType
deriving DecidableEq, Repr

/-- The JS idiom `v || d` applied to a `parseFloat` result: `NaN` (here
`none`) and `0` are falsy and give the default `d`; any other number is kept. -/
def jsOr (v : Option ℚ) (d : ℚ) : ℚ :=
  match v with
  | none => d
  | some x => if x = 0 then d else x

/-- Models `s.replace(/\D/g, '')` : the digit characters of a string, in order. -/
def digitsOf (s : String) : List Char :=
  s.toList.filter (fun c => c.isDigit)

/-- Numeric value of a list of decimal digit characters. -/
def natOfDigits (cs : List Char) : Nat :=
  cs.foldl (fun n c => 10 * n + (c.toNat - 48)) 0

/-- Models `parseInt(p.id.replace(/\D/g, ''))` from the comparator in
`groupPeriodsIntoSemesters`: `none` models `NaN` (no digits at all). -/
def numOf (p : Period) : Option Nat :=
  let ds := digitsOf p.id
  if ds = [] then none else some (natOfDigits ds)

/-- The comparator passed to `activePeriods.sort` in
`groupPeriodsIntoSemesters` (student view):

    const aNum = parseInt(a.id.replace(/\D/g, ''));
    const bNum = parseInt(b.id.replace(/\D/g, ''));
    if (a.type !== b.type) return a.type === 'exam' ? 1 : -1; // exams last
    return aNum - bNum;

Per the ECMAScript `SortCompare` rule a `NaN` comparator result counts as
`+0`, hence the `none` branches return `0`. -/
def cmpPeriod (a b : Period) : Int :=
  if a.type ≠ b.type then (if a.type = PType.exam then 1 else -1)
  else
    match numOf a, numOf b with
    | some x, some y => (x : Int) - (y : Int)
    | _, _ => 0

/-- The (non-strict) order induced by `cmpPeriod`: `a` may be placed before
`b` exactly when the comparator does not demand the opposite order. -/
def jsLe (a b : Period) : Prop := cmpPeriod a b ≤ 0

instance (a b : Period) : Decidable (jsLe a b) :=
  inferInstanceAs (Decidable (cmpPeriod a b ≤ 0))

/-- Models `activePeriods.sort(comparator)` : JS `Array.prototype.sort` is a stable
sort consistent with the comparator; insertion sort with `jsLe` realises it. -/
def sortPeriods (l : List Period) : List Period :=
  List.insertionSort jsLe l

/-- The grouping loop of `groupPeriodsIntoSemesters`: walk the (sorted)
periods, pushing onto the current semester and closing the semester after
each exam-type period.  Returns the closed groups and the leftover current
semester. -/
def scanGroups : List Period → List Period → List (List Period) × List Period
  | [], cur => ([], cur)
  | p :: rest, cur =>
    if p.type = PType.exam then
      let r := scanGroups rest []
      ((cur ++ [p]) :: r.1, r.2)
    else
      scanGroups rest (cur ++ [p])

/-- Models `groupPeriodsIntoSemesters(activePeriods)` (student view), including its
in-place sort.  The first component is the value of the caller's
`activePeriods` array after the call (the array is sorted in place); the
second component is the returned array of semester groups. -/
def groupPeriodsIntoSemestersM (l : List Period) : List Period × List (List Period) :=
  let sorted := sortPeriods l
  let s := scanGroups sorted []
  let semesters := if 0 < s.2.length ∨ l.length = 0 then s.1 ++ [s.2] else s.1
  (sorted, if 0 < semesters.length then semesters else [sorted])

/-- The return value of `groupPeriodsIntoSemesters`. -/
def groupPeriodsIntoSemesters (l : List Period) : List (List Period) :=
  (groupPeriodsIntoSemestersM l).2

/-- Models `getLetterGrade(score)`, identical in `script.js` and the student-view
file:

    if (score >= 90) return 'A';
    if (score >= 80) return 'B';
    if (score >= 70) return 'C';
    if (score >= 60) return 'D';
    return 'F';
-/
def getLetterGrade (score : ℚ) : String :=
  if 90 ≤ score then "A"
  else if 80 ≤ score then "B"
  else if 70 ≤ score then "C"
  else if 60 ≤ score then "D"
  else "F"

/-- The eight concrete periods named by the specification's grouping example:
six regular periods and two exams, with their ids and types as produced by
the application. -/
def P1 : Period := ⟨"p1", "1st Period", PType.period⟩

def P2 : Period := ⟨"p2", "2nd Period", PType.period⟩

def P3 : Period := ⟨"p3", "3rd Period", PType.period⟩

def E1 : Period := ⟨"exam1", "1st Semester", PType.exam⟩

def P4 : Period := ⟨"p4", "4th Period", PType.period⟩

def P5 : Period := ⟨"p5", "5th Period", PType.period⟩

def P6 : Period := ⟨"p6", "6th Period", PType.period⟩

def E2 : Period := ⟨"exam2", "2nd Semester", PType.exam⟩

/-- A subject's persisted grade record, modelled by its score map: `g pid`
is the result of `parseFloat(record[pid])`, with `none` for a missing or
non-numeric entry (a `NaN` parse). -/
def GradeMap : Type := String → Option ℚ

/-- The per-period class average of `buildTableFooter` (student view):

    const periodTotal = grades.reduce((sum, current) => sum + (parseFloat(current[p.id]) || 0), 0);
    const avg = grades.length > 0 ? periodTotal / grades.length : 0;
-/
def footerPeriodAvg (grades : List GradeMap) (pid : String) : ℚ :=
  let periodTotal := grades.foldl (fun sum g => sum + jsOr (g pid) 0) 0
  if 0 < grades.length then periodTotal / (grades.length : ℚ) else 0

/-- The column accumulation of `renderGradeTable` in `script.js`: `addToTotal`
adds a parsed value to `colTotals` and bumps `colCounts` only when the value
is a number (`!isNaN(val) && val !== null`). -/
def colAccum (grades : List GradeMap) (pid : String) : ℚ × Nat :=
  grades.foldl (fun acc g =>
    match g pid with
    | some v => (acc.1 + v, acc.2 + 1)
    | none => acc) (0, 0)

/-- The footer cell of `setFooter` in `script.js`: `colTotals[key] / colCounts[key]`
when at least one valid score was counted, otherwise the cell shows `-`
(modelled as `none`). -/
def setFooterAvg (grades : List GradeMap) (pid : String) : Option ℚ :=
  let acc := colAccum grades pid
  if 0 < acc.2 then some (acc.1 / (acc.2 : ℚ)) else none

/-- Models `calculateAvg(...values)` from `script.js`:

    const validValues = values.filter(v => v !== null && v !== undefined && v !== '' && !isNaN(v));
    if (validValues.length === 0) return null;
    return validValues.reduce((a, b) => a + b, 0) / validValues.length;

Its arguments are `parseFloat` results, so the filter keeps exactly the
non-`NaN` (here: `some`) entries. -/
def calculateAvg (values : List (Option ℚ)) : Option ℚ :=
  let validValues := values.filterMap id
  if validValues.length = 0 then none
  else some (validValues.foldl (· + ·) 0 / (validValues.length : ℚ))

/-- The yearly (final) average of `renderGradeTable` in `script.js`:

    let yearly = null;
    if (avg1 !== null && avg2 !== null) yearly = (avg1 + avg2) / 2;
    else if (avg1 !== null) yearly = avg1;
    else if (avg2 !== null) yearly = avg2;
-/
def jsYearly (avg1 avg2 : Option ℚ) : Option ℚ :=
  match avg1, avg2 with
  | some a, some b => some ((a + b) / 2)
  | some a, none => some a
  | none, some b => some b
  | none, none => none

/-- Per-subject semester average in `buildTableBody` (student view):

    const semesterScores = semesterPeriods.map(p => parseFloat(subjectGrade[p.id]) || 0);
    const semesterAvg = semesterScores.length > 0 ? semesterScores.reduce((a, b) => a + b, 0) / semesterScores.length : 0;
-/
def bodySemesterAvg (g : GradeMap) (semesterPeriods : List Period) : ℚ :=
  let semesterScores := semesterPeriods.map (fun p => jsOr (g p.id) 0)
  if 0 < semesterScores.length then
    semesterScores.foldl (· + ·) 0 / (semesterScores.length : ℚ)
  else 0

/-- Per-subject final average in `buildTableBody` (student view): the mean of
`semesterAverages`, which receives one entry per semester group
unconditionally:

    const finalAvg = semesterAverages.length > 0 ? semesterAverages.reduce((a, b) => a + b, 0) / semesterAverages.length : 0;
-/
def bodyFinalAvg (g : GradeMap) (semesters : List (List Period)) : ℚ :=
  let semesterAverages := semesters.map (bodySemesterAvg g)
  if 0 < semesterAverages.length then
    semesterAverages.foldl (· + ·) 0 / (semesterAverages.length : ℚ)
  else 0

/-- The admin console's final average (`calculateAndDisplayAverages`):
`const finalAvg = (sem1Avg + sem2Avg) / 2;` — unconditionally. -/
def adminFinalAvg (sem1Avg sem2Avg : ℚ) : ℚ :=
  (sem1Avg + sem2Avg) / 2

/-- Score collection in `collectCurrentGrades` (admin):
`grade[period.id] = parseFloat(input?.value) || 90;`. -/
def collectScore (parsed : Option ℚ) : ℚ :=
  jsOr parsed 90

/-- Score collection in the admin form submit handler:
`grade[periodId] = gradeInput ? (parseFloat(gradeInput.value) || 0) : 0;`.
The outer `Option` models whether the input element exists. -/
def submitScore (inputVal : Option (Option ℚ)) : ℚ :=
  match inputVal with
  | some parsed => jsOr parsed 0
  | none => 0

/-- Rendering of an integer `n` of tenths as a one-decimal string (the final
string-assembly step of `toFixed(1)`). -/
def fixed1Int (n : Int) : String :=
  (if n < 0 then "-" else "") ++ toString (n.natAbs / 10) ++ "." ++ toString (n.natAbs % 10)

/-- Models `a.toFixed(1)`: the nearest multiple of 1/10, ties resolved upward per
the ECMAScript `toFixed` rule, rendered with one decimal. -/
def fixed1 (a : ℚ) : String :=
  fixed1Int ⌊a * 10 + 1 / 2⌋

/-- The semester-average cell of `renderGradeTable` in `script.js`:
`avg1 !== null ? avg1.toFixed(1) : '-'`. -/
def semAvgCell (avg : Option ℚ) : String :=
  match avg with
  | some a => fixed1 a
  | none => "-"

/-- Folding addition over a list starting from `init` is `init` plus the sum. -/
theorem foldl_add_eq_sum (l : List ℚ) (init : ℚ) :
    l.foldl (· + ·) init = init + l.sum := by
  induction l generalizing init with
  | nil => simp
  | cons a t ih =>
    rw [List.foldl_cons, ih, List.sum_cons]
    ring

/-- Folding `s + f x` over a list starting from `init` is `init` plus the sum
of the mapped list. -/
theorem foldl_add_map {α : Type} (f : α → ℚ) (l : List α) (init : ℚ) :
    l.foldl (fun s x => s + f x) init = init + (l.map f).sum := by
  induction l generalizing init with
  | nil => simp
  | cons a t ih =>
    rw [List.foldl_cons, ih, List.map_cons, List.sum_cons]
    ring

/-- A subject record whose only score is `p1 = 100`. -/
def gOnly100 : GradeMap := fun k => if k = "p1" then some 100 else none

/-- A subject record whose only score is `p1 = 0`. -/
def gZero : GradeMap := fun k => if k = "p1" then some 0 else none

/-- A subject record with no valid score at all. -/
def gNone : GradeMap := fun _ => none

/-- A subject record whose only score is `exam1 = 80`. -/
def g80 : GradeMap := fun k => if k = "exam1" then some 80 else none

/-- Models `getOrdinalSuffix(i)` (admin version):

    const j = i % 10, k = i % 100;
    if (j === 1 && k !== 11) return "st";
    if (j === 2 && k !== 12) return "nd";
    if (j === 3 && k !== 13) return "rd";
    return "th";
-/
def getOrdinalSuffix (i : Nat) : String :=
  let j := i % 10
  let k := i % 100
  if j = 1 ∧ k ≠ 11 then "st"
  else if j = 2 ∧ k ≠ 12 then "nd"
  else if j = 3 ∧ k ≠ 13 then "rd"
  else "th"

/-- Models `getDefaultPeriods()` (admin): the ten canned default periods. -/
def getDefaultPeriods : List Period :=
  [⟨"p1", "1st Period", PType.period⟩, ⟨"p2", "2nd Period", PType.period⟩,
   ⟨"p3", "3rd Period", PType.period⟩, ⟨"exam1", "1st Semester", PType.exam⟩,
   ⟨"sem1", "1st Sem Avg", PType.semester⟩, ⟨"p4", "4th Period", PType.period⟩,
   ⟨"p5", "5th Period", PType.period⟩, ⟨"p6", "6th Period", PType.period⟩,
   ⟨"exam2", "2nd Semester", PType.exam⟩, ⟨"sem2", "2nd Sem Avg", PType.semester⟩]

/-- The string form of a period type, as used for the collision-fallback id
`` `${type}_${Date.now()}` `` in `addPeriod`. -/
def typeStr : PType → String
  | PType.period => "period"
  | PType.exam => "exam"
  | PType.semester => "semester"

/-- The sequential id and default-or-custom name `addPeriod` computes before
its collision check: `p<n>` / `<n><suffix> Period` for regular periods,
`exam<n>` / `Exam <n>` for exams (`customName || default`). -/
def computedIdName (reg : List Period) (kind : PType) (customName : String) : String × String :=
  if kind = PType.period then
    let periodCount := (reg.filter (fun p => p.type = PType.period)).length + 1
    ("p" ++ toString periodCount,
     if customName = "" then toString periodCount ++ getOrdinalSuffix periodCount ++ " Period"
     else customName)
  else
    let examCount := (reg.filter (fun p => p.type = PType.exam)).length + 1
    ("exam" ++ toString examCount,
     if customName = "" then "Exam " ++ toString examCount else customName)

/-- The id `addPeriod` actually pushes: the computed sequential id, or the
`<type>_<timestamp>` fallback when the computed id already exists
(`if (activePeriods.some(p => p.id === newId)) newId = `${type}_${Date.now()}`;`). -/
def pushedId (reg : List Period) (kind : PType) (customName : String) (ts : Nat) : String :=
  if reg.any (fun p => p.id = (computedIdName reg kind customName).1) then
    typeStr kind ++ "_" ++ toString ts
  else (computedIdName reg kind customName).1

/-- Models `addPeriod(type, customName)` (admin), with the `Date.now()` value
supplied as `ts`: appends the new period object to `activePeriods`. -/
def addPeriod (reg : List Period) (kind : PType) (customName : String) (ts : Nat) : List Period :=
  reg ++ [⟨pushedId reg kind customName ts, (computedIdName reg kind customName).2, kind⟩]

/-- Models `removePeriod(periodId)` (admin):

    if (activePeriods.length <= 1) { alert("You must have at least one period."); return; }
    activePeriods = activePeriods.filter(p => p.id !== periodId);

The boolean records whether the user-facing warning (`alert`) was shown. -/
def removePeriodFn (reg : List Period) (periodId : String) : List Period × Bool :=
  if reg.length ≤ 1 then (reg, true)
  else (reg.filter (fun p => p.id ≠ periodId), false)

/-- One user action on the period registry: an `addPeriod` click (with the
`Date.now()` value it observes) or a `removePeriod` click. -/
inductive RegOp where
  | add (kind : PType) (customName : String) (ts : Nat)
  | remove (periodId : String)

/-- Apply one registry action to the `activePeriods` state. -/
def applyOp (reg : List Period) : RegOp → List Period
  | RegOp.add kind nm ts => addPeriod reg kind nm ts
  | RegOp.remove pid => (removePeriodFn reg pid).1

/-- Run a sequence of registry actions from an initial registry. -/
def runOps (reg : List Period) (ops : List RegOp) : List Period :=
  ops.foldl applyOp reg

/-- An action is clean when an `addPeriod` click pushes an id not already in
the registry — the collision fallback `<type>_<Date.now()>` is only
uniqueness-guaranteeing when the observed timestamps do not repeat. -/
def okOp (reg : List Period) : RegOp → Prop
  | RegOp.add kind nm ts => pushedId reg kind nm ts ∉ reg.map Period.id
  | RegOp.remove _ => True

/-- A clean trace: every action in the sequence is clean in the state where
it fires. -/
def okTrace : List Period → List RegOp → Prop
  | _, [] => True
  | reg, op :: ops => okOp reg op ∧ okTrace (applyOp reg op) ops

/-- Registry sanity: nonempty with pairwise-distinct period ids. -/
def goodReg (reg : List Period) : Prop :=
  reg ≠ [] ∧ (reg.map Period.id).Nodup

/-- Models `String.prototype.startsWith`. -/
def strStartsWith (s pre : String) : Bool :=
  s.toList.take pre.toList.length == pre.toList

/-- Models `parseInt` on the tail of a key: the longest leading run of digits, or
`NaN` (`none`) when there is none. -/
def parseIntLeading (cs : List Char) : Option Nat :=
  let ds := cs.takeWhile (fun c => c.isDigit)
  if ds = [] then none else some (natOfDigits ds)

/-- One derived period from a score-map key, as built inside
`setActivePeriodsFromGrades` (admin):

    const type = key.startsWith('exam') ? 'exam' : (key.startsWith('sem') ? 'semester' : 'period');
    let name = key;
    if (key.startsWith('p')) { const num = parseInt(key.substring(1)); name = `${num}${getOrdinalSuffix(num)} Period`; }
    else if (key === 'exam1') name = '1st Semester';
    else if (key === 'sem1') name = '1st Sem Avg';
    else if (key === 'exam2') name = '2nd Semester';
    else if (key === 'sem2') name = '2nd Sem Avg';
    else if (key.startsWith('exam')) name = `Exam ${parseInt(key.substring(4))}`;

(`NaN` interpolates as the string `"NaN"`, and `getOrdinalSuffix(NaN)`
returns `"th"`.) -/
def derivePeriod (key : String) : Period :=
  let t := if strStartsWith key "exam" then PType.exam
    else if strStartsWith key "sem" then PType.semester
    else PType.period
  let name :=
    if strStartsWith key "p" then
      match parseIntLeading (key.toList.drop 1) with
      | some num => toString num ++ getOrdinalSuffix num ++ " Period"
      | none => "NaNth Period"
    else if key = "exam1" then "1st Semester"
    else if key = "sem1" then "1st Sem Avg"
    else if key = "exam2" then "2nd Semester"
    else if key = "sem2" then "2nd Sem Avg"
    else if strStartsWith key "exam" then
      match parseIntLeading (key.toList.drop 4) with
      | some num => "Exam " ++ toString num
      | none => "Exam NaN"
    else key
  ⟨key, name, t⟩

/-- Models `setActivePeriodsFromGrades(gradesData)`, first variant in `admin.js`
(the one the claim cites): derives the registry from the keys of the first
subject's record, excluding only the key `subject`, and falls back to the
ten defaults when nothing was derived.  A record is modelled by its key list
in object-iteration (insertion) order. -/
def setActivePeriodsFromGrades_v1 (gradesData : List (List String)) : List Period :=
  let aps :=
    match gradesData with
    | [] => []
    | first :: _ => (first.filter (fun key => key ≠ "subject")).map derivePeriod
  if aps.length = 0 then getDefaultPeriods else aps

/-- Models `setActivePeriodsFromGrades(gradesData)`, second variant in `admin.js`:
same derivation but excluding `subject`, `comment`, `_id` and `__v`. -/
def setActivePeriodsFromGrades_v2 (gradesData : List (List String)) : List Period :=
  let aps :=
    match gradesData with
    | [] => []
    | first :: _ =>
      (first.filter
        (fun key => key ≠ "subject" ∧ key ≠ "comment" ∧ key ≠ "_id" ∧ key ≠ "__v")).map
        derivePeriod
  if aps.length = 0 then getDefaultPeriods else aps

/-- Claim C1.  The specification demands that `groupIntoSemesters` on
`[p1,p2,p3,exam1,p4,p5,p6,exam2]` yield the two groups `[p1,p2,p3,exam1]`
and `[p4,p5,p6,exam2]`, and the source's own doc comment gives the analogous
example `[p1, p2, exam1, p3, p4, exam2] -> [[p1, p2, exam1], [p3, p4, exam2]]`.
The implemented comparator, however, orders every exam after every regular
period regardless of numeric suffix, so the code actually returns
`[[p1,p2,p3,p4,p5,p6,exam1],[exam2]]` — the code contradicts its own
documentation (and the claim). -/
theorem groupIntoSemesters_eight_periods_actual :
    groupPeriodsIntoSemesters [P1, P2, P3, E1, P4, P5, P6, E2]
      = [[P1, P2, P3, P4, P5, P6, E1], [E2]] ∧
    ([[P1, P2, P3, P4, P5, P6, E1], [E2]] : List (List Period))
      ≠ [[P1, P2, P3, E1], [P4, P5, P6, E2]] := by
  refine ⟨by decide, by decide⟩

/-- Claim C7: `getLetterGrade` maps scores to letters by the thresholds
`≥90 → A`, `≥80 → B`, `≥70 → C`, `≥60 → D`, else `F`, each boundary
inclusive; in particular 59.99 ↦ F, 60 ↦ D, 89.99 ↦ B, 90 ↦ A. -/
theorem getLetterGrade_thresholds (s : ℚ) :
    (90 ≤ s → getLetterGrade s = "A") ∧
    (80 ≤ s ∧ s < 90 → getLetterGrade s = "B") ∧
    (70 ≤ s ∧ s < 80 → getLetterGrade s = "C") ∧
    (60 ≤ s ∧ s < 70 → getLetterGrade s = "D") ∧
    (s < 60 → getLetterGrade s = "F") ∧
    getLetterGrade (5999/100) = "F" ∧ getLetterGrade 60 = "D" ∧
    getLetterGrade (8999/100) = "B" ∧ getLetterGrade 90 = "A" := by
  unfold getLetterGrade
  refine ⟨?_, ?_, ?_, ?_, ?_, by norm_num, by norm_num, by norm_num, by norm_num⟩
  · intro h
    rw [if_pos h]
  · rintro ⟨h1, h2⟩
    rw [if_neg (by linarith), if_pos h1]
  · rintro ⟨h1, h2⟩
    rw [if_neg (by linarith), if_neg (by linarith), if_pos h1]
  · rintro ⟨h1, h2⟩
    rw [if_neg (by linarith), if_neg (by linarith), if_neg (by linarith), if_pos h1]
  · intro h
    rw [if_neg (by linarith), if_neg (by linarith), if_neg (by linarith),
      if_neg (by linarith)]

/-- Witness for C7's theorem: its threshold implications discharged at
concrete scores. -/
theorem getLetterGrade_thresholds_witness :
    getLetterGrade 95 = "A" ∧ getLetterGrade 85 = "B" ∧ getLetterGrade 75 = "C" ∧
    getLetterGrade 65 = "D" ∧ getLetterGrade 55 = "F" :=
  ⟨(getLetterGrade_thresholds 95).1 (by norm_num),
   (getLetterGrade_thresholds 85).2.1 (by norm_num),
   (getLetterGrade_thresholds 75).2.2.1 (by norm_num),
   (getLetterGrade_thresholds 65).2.2.2.1 (by norm_num),
   (getLetterGrade_thresholds 55).2.2.2.2.1 (by norm_num)⟩

/-- Counterexample to claim C2 as stated: the claim demands that *every*
class-wide period-average path divide by the number of subjects, a missing
score contributing 0 to the sum but still counting in the denominator.  In
the `setFooter` path of `script.js`, a grade matrix with subjects
`p1 = 100` and `p1` missing yields a class average of 100 (the missing
score is excluded from the denominator), not the 50 the claim requires. -/
theorem setFooter_missing_score_counterexample :
    setFooterAvg [gOnly100, gNone] "p1" = some 100 ∧
    footerPeriodAvg [gOnly100, gNone] "p1" = 50 ∧
    some (100 : ℚ) ≠ some (50 : ℚ) := by
  refine ⟨?_, ?_, by norm_num⟩
  · simp [setFooterAvg, colAccum, gOnly100, gNone]
  · simp [footerPeriodAvg, gOnly100, gNone, jsOr]
    norm_num

/-- Claim C2 as amended: the `buildTableFooter` class average (student view)
divides the sum of all subjects' scores — missing/invalid counted as 0 — by
the subject count; the `setFooter` path of `script.js` instead divides by
the count of subjects with a valid score.  On the claim's example (two
subjects with `p1` scores 100 and 0) both paths produce 50, because a valid
0 is a number and is counted in both. -/
theorem classAverage_paths :
    (∀ (grades : List GradeMap) (pid : String), grades ≠ [] →
      footerPeriodAvg grades pid
        = (grades.map (fun g => jsOr (g pid) 0)).sum / (grades.length : ℚ)) ∧
    footerPeriodAvg [gOnly100, gZero] "p1" = 50 ∧
    setFooterAvg [gOnly100, gZero] "p1" = some 50 := by
  refine ⟨?_, ?_, ?_⟩
  · intro grades pid h
    unfold footerPeriodAvg
    rw [foldl_add_map, zero_add, if_pos (List.length_pos.mpr h)]
  · simp [footerPeriodAvg, gOnly100, gZero, jsOr]
    norm_num
  · simp [setFooterAvg, colAccum, gOnly100, gZero]
    norm_num

/-- Witness for C2's amended theorem: the general footer-average equation
applied to a concrete one-subject matrix. -/
theorem classAverage_paths_witness :
    footerPeriodAvg [gOnly100] "p1"
      = (([gOnly100] : List GradeMap).map (fun g => jsOr (g "p1") 0)).sum
        / (([gOnly100] : List GradeMap).length : ℚ) :=
  classAverage_paths.1 [gOnly100] "p1" (by simp)

/-- Counterexample to claim C3 as stated: the claim demands that *every*
per-subject final-average path equal the single semester's average when only
one semester has data.  In `buildTableBody` (student view), a subject whose
only score is `exam1 = 80`, under the two semester groups produced for
`[exam1, exam2]`, gets semester averages 80 and 0 and a final average of 40
— half the data-bearing semester's average, not 80. -/
theorem bodyFinalAvg_halves_counterexample :
    bodySemesterAvg g80 [E1] = 80 ∧
    bodySemesterAvg g80 [E2] = 0 ∧
    bodyFinalAvg g80 (groupPeriodsIntoSemesters [E1, E2]) = 40 ∧
    (40 : ℚ) ≠ 80 := by
  have hg : groupPeriodsIntoSemesters [E1, E2] = [[E1], [E2]] := by decide
  refine ⟨?_, ?_, ?_, by norm_num⟩
  · simp [bodySemesterAvg, g80, E1, jsOr]
  · simp [bodySemesterAvg, g80, E2, jsOr]
  · rw [hg]
    simp [bodyFinalAvg, bodySemesterAvg, g80, E1, E2, jsOr]
    norm_num

/-- Claim C3 as amended: only the `script.js` student-view path degrades
gracefully — its yearly average is the mean of both semester averages when
both exist and equals the present one when only one exists.  In
`buildTableBody` (student view) the per-subject final average over two
semester groups is always the mean of both group averages (missing scores
count as 0), and the admin console's final average is always
`(sem1Avg + sem2Avg) / 2`, so in those two paths a lone data-bearing
semester is halved. -/
theorem finalAverage_amended :
    (∀ a b : ℚ, jsYearly (some a) (some b) = some ((a + b) / 2)) ∧
    (∀ a : ℚ, jsYearly (some a) none = some a) ∧
    (∀ b : ℚ, jsYearly none (some b) = some b) ∧
    jsYearly none none = none ∧
    (∀ a : ℚ, adminFinalAvg a 0 = a / 2) ∧
    (∀ (g : GradeMap) (s1 s2 : List Period),
      bodyFinalAvg g [s1, s2] = (bodySemesterAvg g s1 + bodySemesterAvg g s2) / 2) := by
  refine ⟨fun a b => rfl, fun a => rfl, fun b => rfl, rfl, ?_, ?_⟩
  · intro a
    simp [adminFinalAvg]
  · intro g s1 s2
    simp [bodyFinalAvg]

/-- Counterexample to claim C4 as stated: the claim demands that a score
input that parses as a float be stored unchanged at every collection site,
and in particular that a valid entered 0 be preserved.  In
`collectCurrentGrades` (admin), `parseFloat(input?.value) || 90` treats the
parsed 0 as falsy, so an entered 0 is stored as 90. -/
theorem collectScore_zero_counterexample :
    collectScore (some 0) = 90 ∧ (90 : ℚ) ≠ 0 := by
  refine ⟨rfl, by norm_num⟩

/-- Claim C4 as amended: parsing is total (never throws); at the
submission-time site a parsed value is always stored unchanged (a parsed 0
survives only because the default is itself 0) and a missing/invalid input
stores 0; at the initial-render site (`collectCurrentGrades`) a missing,
invalid *or zero* parse stores the default 90, so a valid entered 0 is
replaced by 90 there. -/
theorem scoreParsing_amended :
    (∀ x : ℚ, collectScore (some x) = if x = 0 then 90 else x) ∧
    collectScore none = 90 ∧
    (∀ x : ℚ, submitScore (some (some x)) = x) ∧
    submitScore (some none) = 0 ∧
    submitScore none = 0 := by
  refine ⟨fun x => rfl, rfl, ?_, rfl, rfl⟩
  intro x
  show jsOr (some x) 0 = x
  unfold jsOr
  by_cases h : x = 0
  · simp [h]
  · simp [h]

/-- Claim C5: the student-view per-subject semester average
(`calculateAvg` in `script.js`) skips absent/non-numeric entries entirely —
an absent entry changes neither numerator nor denominator — it is the mean
of exactly the valid scores, it is `null` when no valid score exists, and
the table cell then renders `-` (not a formatted 0). -/
theorem calculateAvg_skips_absent :
    (∀ values : List (Option ℚ), calculateAvg (none :: values) = calculateAvg values) ∧
    (∀ values : List (Option ℚ), values.filterMap id = [] → calculateAvg values = none) ∧
    (∀ values : List (Option ℚ), values.filterMap id ≠ [] →
      calculateAvg values
        = some ((values.filterMap id).sum / ((values.filterMap id).length : ℚ))) ∧
    semAvgCell none = "-" ∧
    semAvgCell (calculateAvg [none, none, none, none]) = "-" ∧
    semAvgCell (some 0) = "0.0" ∧ "-" ≠ "0.0" := by
  refine ⟨?_, ?_, ?_, rfl, rfl, ?_, by decide⟩
  · intro values
    simp [calculateAvg]
  · intro values h
    simp [calculateAvg, h]
  · intro values h
    unfold calculateAvg
    rw [if_neg (by simpa [List.length_eq_zero] using h), foldl_add_eq_sum, zero_add]
  · show fixed1 0 = "0.0"
    unfold fixed1
    rw [show ⌊(0 : ℚ) * 10 + 1 / 2⌋ = (0 : ℤ) by norm_num]
    decide

/-- Witness for C5's theorem: the no-valid-score and mean-of-valid branches
applied at concrete inputs. -/
theorem calculateAvg_skips_absent_witness :
    calculateAvg [none] = none ∧
    calculateAvg [some (80 : ℚ), none]
      = some ((([some (80 : ℚ), none]).filterMap id).sum
          / ((([some (80 : ℚ), none]).filterMap id).length : ℚ)) :=
  ⟨calculateAvg_skips_absent.2.1 [none] (by simp),
   calculateAvg_skips_absent.2.2.1 [some 80, none] (by simp)⟩

/-- Removing one id from a registry of at least two periods with distinct
ids cannot empty it. -/
theorem filter_id_ne_nil (reg : List Period) (pid : String)
    (hlen : 2 ≤ reg.length) (hnd : (reg.map Period.id).Nodup) :
    reg.filter (fun p => p.id ≠ pid) ≠ [] := by
  match reg, hlen with
  | a :: b :: t, _ =>
    intro hfil
    rw [List.filter_eq_nil_iff] at hfil
    have ha : a.id = pid := by simpa using hfil a (by simp)
    have hb : b.id = pid := by simpa using hfil b (by simp)
    rw [List.map_cons, List.map_cons, List.nodup_cons] at hnd
    exact hnd.1 (by rw [ha, ← hb]; exact List.mem_cons_self _ _)

/-- One clean registry action preserves registry sanity. -/
theorem goodReg_applyOp (reg : List Period) (op : RegOp)
    (hg : goodReg reg) (hok : okOp reg op) : goodReg (applyOp reg op) := by
  cases op with
  | add kind nm ts =>
    constructor
    · simp [applyOp, addPeriod]
    · unfold applyOp addPeriod
      rw [List.map_append, List.nodup_append]
      refine ⟨hg.2, by simp, ?_⟩
      intro x hx hx2
      simp only [List.map_cons, List.map_nil, List.mem_singleton] at hx2
      exact hok (hx2 ▸ hx)
  | remove pid =>
    show goodReg (removePeriodFn reg pid).1
    unfold removePeriodFn
    by_cases h : reg.length ≤ 1
    · rw [if_pos h]
      exact hg
    · rw [if_neg h]
      refine ⟨filter_id_ne_nil reg pid (by omega) hg.2, ?_⟩
      exact List.Nodup.sublist (List.Sublist.map Period.id (List.filter_sublist reg)) hg.2

/-- A clean trace of registry actions preserves registry sanity. -/
theorem goodReg_runOps : ∀ (ops : List RegOp) (reg : List Period),
    goodReg reg → okTrace reg ops → goodReg (runOps reg ops)
  | [], _, hg, _ => hg
  | op :: ops, reg, hg, hok =>
    goodReg_runOps ops (applyOp reg op) (goodReg_applyOp reg op hg hok.1) hok.2

/-- Claim C6: `removePeriod` on a registry with exactly one period is a
no-op apart from the user-visible warning (no thrown error), and every
registry reachable from the default registry through clean
`addPeriod`/`removePeriod` actions retains at least one period.  (A trace
is clean when no `addPeriod` call pushes an id that already exists — the
`<type>_<Date.now()>` collision fallback assumes non-repeating timestamps.) -/
theorem removePeriod_guard_invariant :
    (∀ (reg : List Period) (pid : String), reg.length = 1 →
      removePeriodFn reg pid = (reg, true)) ∧
    (∀ ops : List RegOp, okTrace getDefaultPeriods ops →
      runOps getDefaultPeriods ops ≠ []) := by
  constructor
  · intro reg pid h
    unfold removePeriodFn
    rw [if_pos (by omega)]
  · intro ops h
    exact (goodReg_runOps ops getDefaultPeriods ⟨by decide, by decide⟩ h).1

/-- Witness for C6's theorem: the singleton no-op and the invariant applied
to a concrete one-step trace. -/
theorem removePeriod_guard_invariant_witness :
    removePeriodFn [P1] "p1" = ([P1], true) ∧
    runOps getDefaultPeriods [RegOp.remove "p1"] ≠ [] :=
  ⟨removePeriod_guard_invariant.1 [P1] "p1" rfl,
   removePeriod_guard_invariant.2 [RegOp.remove "p1"] ⟨trivial, trivial⟩⟩

/-- Counterexample to claim C8 as stated: the claim demands that the
registry derivation exclude every known non-period key (`subject`,
`comment`, storage id fields).  The cited `setActivePeriodsFromGrades`
variant excludes only `subject`: from a first record with keys
`subject, comment, p1` it derives a spurious period with id `comment`
alongside `p1`. -/
theorem setActivePeriods_v1_comment_counterexample :
    (setActivePeriodsFromGrades_v1 [["subject", "comment", "p1"]]).map Period.id
      = ["comment", "p1"] ∧
    (["comment", "p1"] : List String) ≠ ["p1"] := by
  refine ⟨by decide, by decide⟩

/-- Claim C8 as amended: the second `setActivePeriodsFromGrades` variant
excludes `subject`, `comment`, `_id` and `__v`, produces exactly one period
per remaining key of the first record — id equal to the key, type inferred
from the id's leading text (`exam*` → exam, else `sem*` → semester, else
period) — and falls back to exactly the ten canned defaults when no key
remains; the first (cited) variant excludes only `subject`, so `comment`
and id keys yield spurious period entries there. -/
theorem setActivePeriods_amended :
    (∀ (first : List String) (rest : List (List String)),
      first.filter
        (fun key => key ≠ "subject" ∧ key ≠ "comment" ∧ key ≠ "_id" ∧ key ≠ "__v") ≠ [] →
      (setActivePeriodsFromGrades_v2 (first :: rest)).map Period.id
        = first.filter
            (fun key => key ≠ "subject" ∧ key ≠ "comment" ∧ key ≠ "_id" ∧ key ≠ "__v")) ∧
    (∀ (first : List String) (rest : List (List String)),
      first.filter
        (fun key => key ≠ "subject" ∧ key ≠ "comment" ∧ key ≠ "_id" ∧ key ≠ "__v") = [] →
      setActivePeriodsFromGrades_v2 (first :: rest) = getDefaultPeriods) ∧
    setActivePeriodsFromGrades_v2 [] = getDefaultPeriods ∧
    getDefaultPeriods.map Period.id
      = ["p1", "p2", "p3", "exam1", "sem1", "p4", "p5", "p6", "exam2", "sem2"] ∧
    (∀ key : String, (derivePeriod key).id = key) ∧
    (∀ key : String, strStartsWith key "exam" = true →
      (derivePeriod key).type = PType.exam) ∧
    (∀ key : String, strStartsWith key "exam" = false → strStartsWith key "sem" = true →
      (derivePeriod key).type = PType.semester) ∧
    (∀ key : String, strStartsWith key "exam" = false → strStartsWith key "sem" = false →
      (derivePeriod key).type = PType.period) ∧
    derivePeriod "p1" = ⟨"p1", "1st Period", PType.period⟩ ∧
    derivePeriod "exam1" = ⟨"exam1", "1st Semester", PType.exam⟩ := by
  refine ⟨?_, ?_, rfl, by decide, fun key => rfl, ?_, ?_, ?_, by decide, by decide⟩
  · intro first rest h
    simp only [setActivePeriodsFromGrades_v2, List.length_map]
    rw [if_neg (by simpa [List.length_eq_zero] using h), List.map_map]
    have hid : Period.id ∘ derivePeriod = id := funext fun k => rfl
    rw [hid, List.map_id]
  · intro first rest h
    simp only [setActivePeriodsFromGrades_v2, List.length_map]
    rw [h]
    simp
  · intro key h
    simp [derivePeriod, h]
  · intro key h1 h2
    simp [derivePeriod, h1, h2]
  · intro key h1 h2
    simp [derivePeriod, h1, h2]

/-- Witness for C8's amended theorem: the derivation and fallback branches
applied at concrete records and keys. -/
theorem setActivePeriods_amended_witness :
    (setActivePeriodsFromGrades_v2 [["subject", "p1"]]).map Period.id
      = (["subject", "p1"] : List String).filter
          (fun key => key ≠ "subject" ∧ key ≠ "comment" ∧ key ≠ "_id" ∧ key ≠ "__v") ∧
    setActivePeriodsFromGrades_v2 [["subject", "comment", "_id"]] = getDefaultPeriods ∧
    (derivePeriod "exam3").type = PType.exam ∧
    (derivePeriod "sem3").type = PType.semester ∧
    (derivePeriod "foo").type = PType.period :=
  ⟨setActivePeriods_amended.1 ["subject", "p1"] [] (by decide),
   setActivePeriods_amended.2.1 ["subject", "comment", "_id"] [] (by decide),
   setActivePeriods_amended.2.2.2.2.2.1 "exam3" (by decide),
   setActivePeriods_amended.2.2.2.2.2.2.1 "sem3" (by decide) (by decide),
   setActivePeriods_amended.2.2.2.2.2.2.2.1 "foo" (by decide) (by decide)⟩

/-- The grouping loop accounts for every period exactly once: the closed
groups followed by the leftover equal the accumulator followed by the input. -/
theorem scanGroups_flatten (rest : List Period) : ∀ cur : List Period,
    (scanGroups rest cur).1.flatten ++ (scanGroups rest cur).2 = cur ++ rest := by
  induction rest with
  | nil =>
    intro cur
    simp [scanGroups]
  | cons p rest ih =>
    intro cur
    by_cases h : p.type = PType.exam
    · simp only [scanGroups, if_pos h]
      rw [List.flatten_cons, List.append_assoc, ih []]
      simp
    · simp only [scanGroups, if_neg h]
      rw [ih (cur ++ [p])]
      simp

/-- In the grouping loop, no exam-type period ever sits before the last
position of a closed group, and the leftover contains no exam at all
(provided the accumulator contains none). -/
theorem scanGroups_exam_last (rest : List Period) : ∀ cur : List Period,
    (∀ q ∈ cur, q.type ≠ PType.exam) →
    (∀ g ∈ (scanGroups rest cur).1, ∀ q ∈ g.dropLast, q.type ≠ PType.exam) ∧
    (∀ q ∈ (scanGroups rest cur).2, q.type ≠ PType.exam) := by
  induction rest with
  | nil =>
    intro cur hcur
    refine ⟨?_, ?_⟩
    · intro g hg
      simp [scanGroups] at hg
    · intro q hq
      exact hcur q (by simpa [scanGroups] using hq)
  | cons p rest ih =>
    intro cur hcur
    by_cases h : p.type = PType.exam
    · have ihe := ih [] (by simp)
      refine ⟨?_, ?_⟩
      · intro g hg
        simp only [scanGroups, if_pos h] at hg
        rcases List.mem_cons.mp hg with hg1 | hg2
        · subst hg1
          intro q hq
          have hdl : (cur ++ [p]).dropLast = cur := by simp
          exact hcur q (by rwa [hdl] at hq)
        · exact ihe.1 g hg2
      · intro q hq
        simp only [scanGroups, if_pos h] at hq
        exact ihe.2 q hq
    · have hcur2 : ∀ q ∈ cur ++ [p], q.type ≠ PType.exam := by
        intro q hq
        rcases List.mem_append.mp hq with h1 | h2
        · exact hcur q h1
        · rw [List.mem_singleton.mp h2]
          exact h
      have ihr := ih (cur ++ [p]) hcur2
      refine ⟨?_, ?_⟩
      · intro g hg
        simp only [scanGroups, if_neg h] at hg
        exact ihr.1 g hg
      · intro q hq
        simp only [scanGroups, if_neg h] at hq
        exact ihr.2 q hq

/-- Claim C9: for every non-empty period list, the concatenation of the
groups returned by `groupPeriodsIntoSemesters` is a permutation of the
input (no period dropped or duplicated), and within every group an
exam-type period can only occupy the last position. -/
theorem groupIntoSemesters_perm_exam_last (l : List Period) (hl : l ≠ []) :
    (groupPeriodsIntoSemesters l).flatten.Perm l ∧
    ∀ g ∈ groupPeriodsIntoSemesters l, ∀ q ∈ g.dropLast, q.type ≠ PType.exam := by
  have hperm : (sortPeriods l).Perm l := List.perm_insertionSort _ l
  have hjoin := scanGroups_flatten (sortPeriods l) []
  have hgr := scanGroups_exam_last (sortPeriods l) [] (by simp)
  rw [List.nil_append] at hjoin
  set s := scanGroups (sortPeriods l) [] with hs
  have hgroup : groupPeriodsIntoSemesters l
      = if 0 < s.2.length ∨ l.length = 0 then s.1 ++ [s.2]
        else if 0 < s.1.length then s.1 else [sortPeriods l] := by
    simp only [groupPeriodsIntoSemesters, groupPeriodsIntoSemestersM, ← hs]
    by_cases hc : 0 < s.2.length ∨ l.length = 0
    · rw [if_pos hc, if_pos hc, if_pos (by simp)]
    · rw [if_neg hc, if_neg hc]
  by_cases hc : 0 < s.2.length ∨ l.length = 0
  · rw [hgroup, if_pos hc]
    constructor
    · rw [List.flatten_append, List.flatten_cons, List.flatten_nil, List.append_nil, hjoin]
      exact hperm
    · intro g hg
      rcases List.mem_append.mp hg with h1 | h2
      · exact hgr.1 g h1
      · rw [List.mem_singleton.mp h2]
        intro q hq
        exact hgr.2 q (List.Sublist.mem hq (List.dropLast_sublist _))
  · have h2 : s.2 = [] := by
      rcases Nat.eq_zero_or_pos s.2.length with h0 | hpos
      · exact List.length_eq_zero.mp h0
      · exact absurd (Or.inl hpos) hc
    have hs1 : s.1.flatten = sortPeriods l := by
      rw [← hjoin, h2, List.append_nil]
    have hne : s.1 ≠ [] := by
      intro h0
      apply hl
      have hempty : sortPeriods l = [] := by
        rw [← hs1, h0, List.flatten_nil]
      have : l.length = 0 := by
        rw [← hperm.length_eq, hempty]
        rfl
      exact List.length_eq_zero.mp this
    rw [hgroup, if_neg hc, if_pos (List.length_pos.mpr hne)]
    constructor
    · rw [hs1]
      exact hperm
    · intro g hg
      exact hgr.1 g hg

/-- Witness for C9's theorem: the permutation and exam-last facts at a
concrete two-period input. -/
theorem groupIntoSemesters_perm_exam_last_witness :
    (groupPeriodsIntoSemesters [P1, E1]).flatten.Perm [P1, E1] ∧
    ∀ g ∈ groupPeriodsIntoSemesters [P1, E1], ∀ q ∈ g.dropLast, q.type ≠ PType.exam :=
  groupIntoSemesters_perm_exam_last [P1, E1] (by simp)

/-- The comparator order is total: for any two periods, one of the two may
come first. -/
theorem jsLe_total (a b : Period) : jsLe a b ∨ jsLe b a := by
  unfold jsLe cmpPeriod
  by_cases h : a.type = b.type
  · rw [if_neg (by simp [h]), if_neg (by simp [h])]
    cases numOf a <;> cases numOf b <;> simp
    omega
  · by_cases he : a.type = PType.exam
    · right
      rw [if_pos (show b.type ≠ a.type from fun hh => h hh.symm),
        if_neg (fun hb : b.type = PType.exam => h (he.trans hb.symm))]
      norm_num
    · left
      rw [if_pos (by simp [h]), if_neg he]
      norm_num

/-- The comparator order is transitive on periods of the two types the
student view actually produces (`period`/`exam`) whose ids carry digits. -/
theorem jsLe_trans_good (a b c : Period)
    (ha : a.type ≠ PType.semester) (hb : b.type ≠ PType.semester)
    (_hc : c.type ≠ PType.semester)
    (na : (numOf a).isSome) (nb : (numOf b).isSome) (nc : (numOf c).isSome)
    (h1 : jsLe a b) (h2 : jsLe b c) : jsLe a c := by
  obtain ⟨x, hx⟩ := Option.isSome_iff_exists.mp na
  obtain ⟨y, hy⟩ := Option.isSome_iff_exists.mp nb
  obtain ⟨z, hz⟩ := Option.isSome_iff_exists.mp nc
  unfold jsLe cmpPeriod at h1 h2 ⊢
  by_cases hab : a.type = b.type <;> by_cases hbc : b.type = c.type
  · rw [if_neg (by simp [hab]), hx, hy] at h1
    rw [if_neg (by simp [hbc]), hy, hz] at h2
    rw [if_neg (by simp [hab.trans hbc]), hx, hz]
    simp only at h1 h2 ⊢
    omega
  · rw [if_pos (by simp [hbc])] at h2
    have hbex : b.type ≠ PType.exam := by
      intro hbe
      rw [if_pos hbe] at h2
      omega
    have hac : a.type ≠ c.type := by
      rw [hab]
      exact hbc
    rw [if_pos (by simp [hac]), if_neg (hab ▸ hbex)]
    norm_num
  · rw [if_pos (by simp [hab])] at h1
    have haex : a.type ≠ PType.exam := by
      intro hae
      rw [if_pos hae] at h1
      omega
    have hac : a.type ≠ c.type := by
      rw [← hbc]
      exact hab
    rw [if_pos (by simp [hac]), if_neg haex]
    norm_num
  · exfalso
    rw [if_pos (by simp [hab])] at h1
    rw [if_pos (by simp [hbc])] at h2
    have haex : a.type ≠ PType.exam := by
      intro hae
      rw [if_pos hae] at h1
      omega
    have hbex : b.type ≠ PType.exam := by
      intro hbe
      rw [if_pos hbe] at h2
      omega
    cases hta : a.type <;> cases htb : b.type <;>
      simp_all

/-- Inserting an element into a pairwise-ordered list keeps it pairwise
ordered, on the two-type digit-bearing periods. -/
theorem pairwise_orderedInsert (a : Period) (l : List Period)
    (hP : ∀ p ∈ a :: l, p.type ≠ PType.semester ∧ (numOf p).isSome)
    (hl : List.Pairwise jsLe l) :
    List.Pairwise jsLe (List.orderedInsert jsLe a l) := by
  induction l with
  | nil => simp [List.orderedInsert]
  | cons b t ih =>
    rw [List.orderedInsert]
    by_cases hab : jsLe a b
    · rw [if_pos hab, List.pairwise_cons]
      constructor
      · intro q hq
        rcases List.mem_cons.mp hq with rfl | hqt
        · exact hab
        · have hb := (List.pairwise_cons.mp hl).1 q hqt
          exact jsLe_trans_good a b q
            (hP a (by simp)).1 (hP b (by simp)).1 (hP q (by simp [hqt])).1
            (hP a (by simp)).2 (hP b (by simp)).2 (hP q (by simp [hqt])).2
            hab hb
      · exact hl
    · rw [if_neg hab, List.pairwise_cons]
      have hba : jsLe b a := (jsLe_total a b).resolve_left hab
      constructor
      · intro q hq
        rcases (List.mem_orderedInsert jsLe).mp hq with rfl | hqt
        · exact hba
        · exact (List.pairwise_cons.mp hl).1 q hqt
      · refine ih ?_ (List.pairwise_cons.mp hl).2
        intro p hp
        rcases List.mem_cons.mp hp with rfl | hpt
        · exact hP p (by simp)
        · exact hP p (by simp [hpt])

/-- Insertion sort with the comparator order yields a pairwise-ordered
list, on the two-type digit-bearing periods. -/
theorem pairwise_sortPeriods (l : List Period)
    (hP : ∀ p ∈ l, p.type ≠ PType.semester ∧ (numOf p).isSome) :
    List.Pairwise jsLe (sortPeriods l) := by
  unfold sortPeriods
  induction l with
  | nil => simp
  | cons a t ih =>
    rw [List.insertionSort]
    apply pairwise_orderedInsert
    · intro p hp
      rcases List.mem_cons.mp hp with rfl | hpt
      · exact hP p (by simp)
      · exact hP p (List.mem_cons_of_mem _ ((List.mem_insertionSort jsLe).mp hpt))
    · exact ih fun p hp => hP p (List.mem_cons_of_mem _ hp)

/-- Claim C10: `groupPeriodsIntoSemesters` mutates its argument — the
caller's array is left equal to the in-place-sorted list, whose entries are
pairwise ordered by the comparator (all period-type entries by numeric
suffix, then all exam-type entries); on the eight standard periods the
post-call array is `[p1,p2,p3,p4,p5,p6,exam1,exam2]`, a reordering of the
argument, not the argument itself. -/
theorem groupIntoSemesters_sorts_argument :
    (∀ l : List Period, (groupPeriodsIntoSemestersM l).1 = sortPeriods l) ∧
    (∀ l : List Period, (sortPeriods l).Perm l) ∧
    (∀ l : List Period, (∀ p ∈ l, p.type ≠ PType.semester ∧ (numOf p).isSome) →
      List.Pairwise jsLe (sortPeriods l)) ∧
    (∀ l : List Period, (∀ p ∈ l, p.type ≠ PType.semester ∧ (numOf p).isSome) →
      List.Pairwise (fun x y => x.type = PType.exam → y.type = PType.exam)
        (sortPeriods l)) ∧
    sortPeriods [P1, P2, P3, E1, P4, P5, P6, E2]
      = [P1, P2, P3, P4, P5, P6, E1, E2] ∧
    sortPeriods [P1, P2, P3, E1, P4, P5, P6, E2]
      ≠ [P1, P2, P3, E1, P4, P5, P6, E2] := by
  refine ⟨fun l => rfl, fun l => List.perm_insertionSort _ l, pairwise_sortPeriods,
    ?_, by decide, by decide⟩
  intro l hP
  refine List.Pairwise.imp ?_ (pairwise_sortPeriods l hP)
  intro x y hxy hex
  by_contra hyne
  have hne : x.type ≠ y.type := by
    rw [hex]
    exact fun hh => hyne hh.symm
  unfold jsLe cmpPeriod at hxy
  rw [if_pos (by simp [hne]), if_pos hex] at hxy
  omega

/-- Witness for C10's theorem: the pairwise-ordering conjuncts applied to
the eight standard periods. -/
theorem groupIntoSemesters_sorts_argument_witness :
    List.Pairwise jsLe (sortPeriods [P1, P2, P3, E1, P4, P5, P6, E2]) ∧
    List.Pairwise (fun x y => x.type = PType.exam → y.type = PType.exam)
      (sortPeriods [P1, P2, P3, E1, P4, P5, P6, E2]) :=
  ⟨groupIntoSemesters_sorts_argument.2.2.1 [P1, P2, P3, E1, P4, P5, P6, E2] (by decide),
   groupIntoSemesters_sorts_argument.2.2.2.1 [P1, P2, P3, E1, P4, P5, P6, E2] (by decide)⟩

end Report
